import Mathlib

/-!
Verification of `src/chainbase.py` (repository `bcdannyboy/Chainbase`) against
its natural-language specification.

The script periodically fetches option-chain data from the Tradier API for a
configured list of tickers and ETFs (ETF constituents resolved through the FMP
holdings API), filters expirations by a days-to-expiration window, and stores
the pickled puts/calls structure in a PostgreSQL table.

Shallow-embedding conventions used throughout:
* JSON bodies returned by `response.json()` are modelled by the `Json` type
  below; Python `in`, subscript, iteration and truthiness on such values are
  modelled by `pyInStr`, `pyIndexStr`, `pyIndexZero`, `pyIter`, `pyTruthy`,
  including the `TypeError` / `KeyError` they raise on unsupported operands.
* HTTP calls are modelled by an environment (`Env`) mapping request arguments
  to either a JSON body or a fetch error; `raise_for_status` failures appear
  as `Err.http` and network-level failures as `Err.transport`.
* Fallible Python code is embedded in `Except Err`; an uncaught exception is
  an `Except.error` result of the enclosing function.
* `logger.error` / `logger.warning` calls referenced by the specification are
  modelled as `Log` events accumulated in function results; `logger.info`
  calls that no claim refers to are elided.
* Dates: the Tradier wire format `YYYY-MM-DD` parsed by `strptime` is
  abstracted to the calendar-day index (an `Int`) that the string denotes;
  `America/Los_Angeles` localization is modelled as a fixed UTC offset, so
  `PST.localize(midnight of day e)` minus `datetime.now(PST)` is the exact
  signed second difference `e * 86400 - (now.day * 86400 + now.sec)` (DST
  transitions between the two instants are not modelled; all concrete inputs
  in the theorems below stay inside one offset regime).
* `pickle.dumps` of the `{puts, calls}` dict is abstracted to the pair of the
  two lists themselves (serialization is injective and never inspected).
-/

namespace Chainbase

/-! ## JSON values and Python operational primitives -/

mutual
/-- A Python value as produced by `response.json()`: `None`, `bool`, number
(integers suffice for every claim), string, list, or string-keyed dict. -/
inductive Json where
  | null
  | bool (b : Bool)
  | num (n : Int)
  | str (s : String)
  | arr (xs : JsonList)
  | obj (kvs : JsonObj)
deriving DecidableEq, Repr
/-- A list of JSON values (spelled out so that equality is decidable). -/
inductive JsonList where
  | nil
  | cons (hd : Json) (tl : JsonList)
deriving DecidableEq, Repr
/-- The key/value entries of a JSON object, in insertion order. -/
inductive JsonObj where
  | nil
  | cons (key : String) (val : Json) (tl : JsonObj)
deriving DecidableEq, Repr
end

/-- View a `JsonList` as a Lean list. -/
def JsonList.toList : JsonList → List Json
  | .nil => []
  | .cons h t => h :: t.toList

/-- Build a `JsonList` from a Lean list. -/
def JsonList.ofList : List Json → JsonList
  | [] => .nil
  | h :: t => .cons h (JsonList.ofList t)

/-- View a `JsonObj` as a Lean association list. -/
def JsonObj.toPairs : JsonObj → List (String × Json)
  | .nil => []
  | .cons k v t => (k, v) :: t.toPairs

/-- Build a `JsonObj` from a Lean association list. -/
def JsonObj.ofPairs : List (String × Json) → JsonObj
  | [] => .nil
  | (k, v) :: t => .cons k v (JsonObj.ofPairs t)

/-- Shorthand: a JSON array from a Lean list. -/
def jarr (xs : List Json) : Json := .arr (JsonList.ofList xs)

/-- Shorthand: a JSON object from a Lean association list. -/
def jobj (kvs : List (String × Json)) : Json := .obj (JsonObj.ofPairs kvs)

/-- Exceptions that can propagate out of the embedded functions:
`requests.exceptions.HTTPError` raised by `raise_for_status` on a non-2xx
status, a network-level transport error
(`requests.exceptions.ConnectionError` / `Timeout`, which are *not*
subclasses of `HTTPError`), and Python `TypeError` / `KeyError` /
`IndexError` raised by operations on unexpected value shapes. -/
inductive Err where
  | http (status : Nat)
  | transport
  | typeErr
  | keyErr (k : String)
  | indexErr
deriving DecidableEq, Repr

/-- Python truthiness (`if x:`) of a JSON value. -/
def pyTruthy : Json → Bool
  | .null => false
  | .bool b => b
  | .num n => n != 0
  | .str s => s != ""
  | .arr .nil => false
  | .arr (.cons _ _) => true
  | .obj .nil => false
  | .obj (.cons _ _ _) => true

/-- Is the (nonempty, in all uses below) character list `needle` a contiguous
run inside `hay`?  Models Python substring membership `needle in hay`. -/
def charsContain (hay needle : List Char) : Bool :=
  match hay with
  | [] => needle.isEmpty
  | _ :: t => needle.isPrefixOf hay || charsContain t needle

/-- Python `key in c` for a string literal `key`: key membership for dicts,
element membership for lists, substring test for strings, `TypeError`
otherwise (e.g. `'option' in None`). -/
def pyInStr (key : String) : Json → Except Err Bool
  | .obj kvs => .ok ((kvs.toPairs).any (fun kv => kv.1 == key))
  | .arr xs => .ok ((xs.toList).any (fun x => x == Json.str key))
  | .str s => .ok (charsContain s.data key.data)
  | _ => .error .typeErr

/-- Python `c[key]` for a string literal `key`: dict lookup (`KeyError` when
absent), `TypeError` for every non-dict operand (list and string subscripts
require integers; `None[...]` is a `TypeError` as well). -/
def pyIndexStr (key : String) : Json → Except Err Json
  | .obj kvs =>
    match (kvs.toPairs).find? (fun kv => kv.1 == key) with
    | some kv => .ok kv.2
    | none => .error (.keyErr key)
  | _ => .error .typeErr

/-- Python `c[0]`: first element of a list (`IndexError` when empty), first
character of a string, `KeyError` for dicts without an integer key,
`TypeError` otherwise. -/
def pyIndexZero : Json → Except Err Json
  | .arr (.cons x _) => .ok x
  | .arr .nil => .error .indexErr
  | .str s =>
    match s.data with
    | [] => .error .indexErr
    | c :: _ => .ok (.str (String.mk [c]))
  | .obj _ => .error (.keyErr "0")
  | _ => .error .typeErr

/-- Python iteration `for x in c`: elements of a list, keys of a dict,
one-character strings of a string, `TypeError` otherwise. -/
def pyIter : Json → Except Err (List Json)
  | .arr xs => .ok xs.toList
  | .obj kvs => .ok ((kvs.toPairs).map (fun kv => Json.str kv.1))
  | .str s => .ok (s.data.map (fun c => Json.str (String.mk [c])))
  | _ => .error .typeErr

/-- Python `s.endswith(suffix)` on strings. -/
def pyEndsWith (s suffix : String) : Bool :=
  suffix.data.isSuffixOf s.data

/-- Python `s.split('.')[0]`: the prefix of `s` before its first `'.'`
(the whole string when `s` has no dot; `split` always returns a nonempty
list, so the `[0]` subscript never fails). -/
def pySplitDotHead (s : String) : String :=
  String.mk (s.data.takeWhile (fun c => c != '.'))

/-! ## Log events referenced by the specification -/

/-- The `logger.error` / `logger.warning` call sites of `chainbase.py` that
the specification's claims refer to, tagged with the dynamic values that
appear in the corresponding message. -/
inductive Log where
  | errFetchExpirations (symbol : Json)
  | warnNoOptionData (symbol : Json) (expiration : Int)
  | warnNoHoldingDates (symbol : String)
  | warnMissingSymbol (holding : Json)
  | warnNoValidHoldings (symbol : String)
  | warnSkipInvalidHolding (holding : Json)
deriving DecidableEq, Repr

/-! ## Time, DTE and the expiration window (lines 166-169) -/

/-- The current instant `datetime.datetime.now(PST)`: the PST calendar-day
index and the number of seconds elapsed since that day's midnight. -/
structure Now where
  day : Int
  sec : Int
deriving DecidableEq, Repr

/-- The quantity `dte = (exp_date - datetime.datetime.now(PST)).days` (line 168), where
`exp_date = PST.localize(datetime.datetime.strptime(exp, '%Y-%m-%d'))` is
midnight PST of the expiration day (line 167).  Python's `timedelta.days`
attribute is the *floor* of the exact difference in days, so the whole
computation is floor division of the signed second difference by 86400. -/
def dte (expDay : Int) (now : Now) : Int :=
  Int.fdiv (expDay * 86400 - (now.day * 86400 + now.sec)) 86400

/-- The expirations for which line 169's guard `1 <= dte <= 90` holds, in
list order: exactly those whose chains are fetched and stored. -/
def eligibleExpirations (exps : List Int) (now : Now) : List Int :=
  exps.filter (fun e => decide (1 ≤ dte e now) && decide (dte e now ≤ 90))

/-! ## The HTTP environment -/

/-- One cycle's external world: the current PST time and the JSON body (or
fetch error) every upstream endpoint would return.  `expirationsResp`
models `get_option_expirations` up to and including the extraction
`data['expirations']['date']` and the per-date `strptime` parse, yielding
the calendar-day indices of the expiration dates (no claim exercises the
extraction or parse failure modes, but an `Err` result can still model
them). -/
structure Env where
  now : Now
  expirationsResp : Json → Except Err (List Int)
  chainResp : Json → Int → Except Err Json
  portfolioDatesResp : String → Except Err Json
  holdingsResp : String → Json → Except Err Json

/-! ## `get_option_chain` (lines 43-62) -/

/-- The guard `'options' in data and 'option' in data['options']` of line 55,
with Python's short-circuit `and`: the second membership test (and hence any
`TypeError` it raises, e.g. for `data['options'] = None`) is evaluated only
when the first succeeds and is true. -/
def chainGuard (data : Json) : Except Err Bool := do
  let b1 ← pyInStr "options" data
  if b1 then do
    let opts ← pyIndexStr "options" data
    pyInStr "option" opts
  else pure false

/-- One of the two list comprehensions of lines 57-58:
`[opt for opt in options if opt['option_type'] == t]`.  Subscripting each
element can raise (`KeyError` for a dict without the key, `TypeError` for a
non-dict); the comparison with the string `t` is `False` for non-string
values and never raises. -/
def filterByType (t : String) : List Json → Except Err (List Json)
  | [] => .ok []
  | o :: rest => do
    let v ← pyIndexStr "option_type" o
    let tail ← filterByType t rest
    if v == Json.str t then pure (o :: tail) else pure tail

/-- The body of `get_option_chain` after the fetch (lines 55-62): partition
the contracts into puts and calls when the guard holds, otherwise return two
empty lists; the boolean records whether the "No option data found" warning
branch was taken. -/
def normalizeChain (data : Json) : Except Err ((List Json × List Json) × Bool) := do
  let g ← chainGuard data
  if g then do
    let opts ← pyIndexStr "options" data
    let optionVal ← pyIndexStr "option" opts
    let options ← pyIter optionVal
    let puts ← filterByType "put" options
    let calls ← filterByType "call" options
    pure ((puts, calls), false)
  else
    pure ((([] : List Json), ([] : List Json)), true)

/-- Embedding of `get_option_chain` (lines 43-62): fetch the chain JSON for one
ticker/expiration pair, then normalize it, logging the "No option data
found" warning when the guard fails. -/
def get_option_chain (env : Env) (symbol : Json) (expiration : Int) :
    Except Err ((List Json × List Json) × List Log) := do
  let data ← env.chainResp symbol expiration
  let r ← normalizeChain data
  if r.2 then pure (r.1, [Log.warnNoOptionData symbol expiration])
  else pure (r.1, [])

/-! ## `get_latest_etf_holding_date` (lines 64-79) -/

/-- Embedding of `get_latest_etf_holding_date`: fetch the portfolio-date list and return
`data[0]['date']` when `data` is truthy, else log the "No holding dates
found" warning and return `None` (modelled as `Json.null`). -/
def get_latest_etf_holding_date (env : Env) (symbol : String) :
    Except Err (Json × List Log) := do
  let data ← env.portfolioDatesResp symbol
  if pyTruthy data then do
    let first ← pyIndexZero data
    let d ← pyIndexStr "date" first
    pure (d, [])
  else
    pure (.null, [Log.warnNoHoldingDates symbol])

/-! ## `get_etf_holdings` (lines 81-102) -/

/-- The loop of lines 94-98: append `holding['symbol']` for each entry that
passes `'symbol' in holding`, logging the "Missing 'symbol'" warning for
each entry that does not. -/
def holdingsLoop : List Json → Except Err (List Json × List Log)
  | [] => .ok ([], [])
  | h :: rest => do
    let b ← pyInStr "symbol" h
    if b then do
      let s ← pyIndexStr "symbol" h
      let r ← holdingsLoop rest
      pure (s :: r.1, r.2)
    else do
      let r ← holdingsLoop rest
      pure (r.1, Log.warnMissingSymbol h :: r.2)

/-- Embedding of `get_etf_holdings` (lines 81-102): fetch the holdings JSON; when it is a
list (`isinstance(data, list)`), extract the symbols with `holdingsLoop`,
otherwise log the "No valid holdings data" warning and return `[]`. -/
def get_etf_holdings (env : Env) (symbol : String) (date : Json) :
    Except Err (List Json × List Log) := do
  let data ← env.holdingsResp symbol date
  match data with
  | .arr xs => holdingsLoop xs.toList
  | _ => pure ([], [Log.warnNoValidHoldings symbol])

/-! ## `process_ticker` (lines 159-184) -/

/-- Embedding of `get_option_expirations` (lines 29-41), as seen by `process_ticker`:
the environment's expirations response for the symbol. -/
def get_option_expirations (env : Env) (symbol : Json) : Except Err (List Int) :=
  env.expirationsResp symbol

/-- One row inserted into `options_chains` (lines 181-184): the ticker
symbol, the expiration (the `DATE` column receives the day of the localized
`exp_date`), and the pickled `{'puts': puts, 'calls': calls}` structure,
abstracted to the pair of contract lists.  The `id` and `timestamp` columns
are server-assigned defaults. -/
structure Row where
  symbol : Json
  expiration : Int
  blob : List Json × List Json
deriving DecidableEq, Repr

/-- The loop of lines 166-184: for each expiration whose `dte` lies in
`[1, 90]`, fetch and normalize the chain and insert one row; other
expirations are skipped without any fetch. -/
def processExpirations (env : Env) (ticker : Json) :
    List Int → Except Err (List Row × List Log)
  | [] => .ok ([], [])
  | e :: rest =>
    if 1 ≤ dte e env.now ∧ dte e env.now ≤ 90 then do
      let c ← get_option_chain env ticker e
      let r ← processExpirations env ticker rest
      pure (⟨ticker, e, c.1⟩ :: r.1, c.2 ++ r.2)
    else processExpirations env ticker rest

/-- Embedding of `process_ticker` (lines 159-184).  The `try`/`except` of lines 160-164
covers only the expirations fetch and catches only
`requests.exceptions.HTTPError`: on such an error the "Error fetching
expirations" message is logged and the function returns with no rows; every
other exception (in particular a network-level transport error, which is not
an `HTTPError`) propagates to the caller. -/
def process_ticker (env : Env) (ticker : Json) : Except Err (List Row × List Log) :=
  match get_option_expirations env ticker with
  | .error (.http _) => .ok ([], [Log.errFetchExpirations ticker])
  | .error e => .error e
  | .ok exps => processExpirations env ticker exps

/-! ## `fetch_and_store_options` (lines 126-157) -/

/-- The per-cycle state threaded through the ticker loop: the
`processed_tickers` set in insertion order (an element is appended exactly
when `process_ticker` is invoked for it, so this list is also the invocation
order), the rows inserted so far, and the warnings/errors logged so far. -/
structure CycleState where
  processed : List Json
  rows : List Row
  logs : List Log
deriving DecidableEq, Repr

/-- The state at line 130: empty processed set, no rows, no logs. -/
def CycleState.init : CycleState := ⟨[], [], []⟩

/-- The holdings loop of lines 140-147: a falsy holding is skipped with the
"Skipping invalid holding" warning; a holding already in `processed_tickers`
is skipped silently; otherwise it is added to the set and processed. -/
def processHoldings (env : Env) : CycleState → List Json → Except Err CycleState
  | st, [] => .ok st
  | st, h :: rest =>
    if pyTruthy h then
      if st.processed.contains h then processHoldings env st rest
      else do
        let r ← process_ticker env h
        processHoldings env ⟨st.processed ++ [h], st.rows ++ r.1, st.logs ++ r.2⟩ rest
    else
      processHoldings env { st with logs := st.logs ++ [Log.warnSkipInvalidHolding h] } rest

/-- The ETF branch of lines 133-147: resolve the latest holdings date for
`ticker.split('.')[0]`; when it is truthy, fetch the holdings and run the
holdings loop, otherwise (the `None` case) do nothing further. -/
def cycleStepEtf (env : Env) (st : CycleState) (ticker : String) : Except Err CycleState := do
  let etfSymbol := pySplitDotHead ticker
  let latest ← get_latest_etf_holding_date env etfSymbol
  if pyTruthy latest.1 then do
    let holdings ← get_etf_holdings env etfSymbol latest.1
    processHoldings env { st with logs := st.logs ++ latest.2 ++ holdings.2 } holdings.1
  else
    pure { st with logs := st.logs ++ latest.2 }

/-- The plain-ticker branch of lines 148-152: process the full configured
string if it is not already in `processed_tickers`. -/
def cycleStepPlain (env : Env) (st : CycleState) (ticker : String) : Except Err CycleState :=
  if st.processed.contains (Json.str ticker) then .ok st
  else do
    let r ← process_ticker env (Json.str ticker)
    pure ⟨st.processed ++ [Json.str ticker], st.rows ++ r.1, st.logs ++ r.2⟩

/-- One iteration of the loop at line 132: the ETF branch is taken exactly
when the configured entry ends with `'.ETF'`. -/
def cycleStep (env : Env) (st : CycleState) (ticker : String) : Except Err CycleState :=
  if pyEndsWith ticker ".ETF" then cycleStepEtf env st ticker
  else cycleStepPlain env st ticker

/-- Embedding of `fetch_and_store_options` (lines 126-157): fold the per-entry step over
the configured list, starting from the empty state.  An uncaught exception
anywhere in the loop aborts the whole cycle before `conn.commit()`
(line 154), so an `Except.error` result carries no state. -/
def fetch_and_store_options (env : Env) (tickers : List String) : Except Err CycleState :=
  tickers.foldlM (cycleStep env) CycleState.init

/-! ## `is_trading_hours` and `schedule_fetch` (lines 186-198) -/

/-- Embedding of `is_trading_hours` (lines 187-189): the current PST hour lies in
`[TRADING_START_HOUR, TRADING_END_HOUR) = [9, 16)`. -/
def is_trading_hours (hour : Nat) : Bool :=
  decide (9 ≤ hour) && decide (hour < 16)

/-- An observable action of one `schedule_fetch` invocation: a call to
`fetch_and_store_options`, or the "Outside of trading hours" info log. -/
inductive SchedEvent where
  | fetch
  | skipLog
deriving DecidableEq, Repr

/-- The body of `schedule_fetch` (lines 192-198) before the timer is armed,
given the current PST hour: line 193 always fetches, then lines 194-197
fetch a second time during trading hours and log the skip otherwise. -/
def schedule_tick_events (hour : Nat) : List SchedEvent :=
  [SchedEvent.fetch] ++
    (if is_trading_hours hour then [SchedEvent.fetch] else [SchedEvent.skipLog])

/-- Invocation instants of successive `schedule_fetch` ticks.  Tick `n`
starts at `schedule_invocation_time t0 interval dur n`, runs for `dur n`
seconds, and only then (line 198, executed after the fetch work) starts
`Timer(interval, schedule_fetch, ...)`, so tick `n + 1` begins `interval`
seconds after tick `n`'s work completed. -/
def schedule_invocation_time (t0 interval : Nat) (dur : Nat → Nat) : Nat → Nat
  | 0 => t0
  | n + 1 => schedule_invocation_time t0 interval dur n + dur n + interval

/-! ## The `ratelimit` decorators (lines 29-31, 43-45, 64-66, 81-82)

Each of the four fetch functions is wrapped in its own
`@sleep_and_retry @limits(calls=60, period=60)` pair.  `limits` keeps
per-decorator state `(last_reset, num_calls)`: a call first resets the
window when `period` has elapsed since `last_reset`, then increments
`num_calls`, and raises `RateLimitException(period_remaining)` when the
count exceeds `calls`; `sleep_and_retry` catches that exception, sleeps for
the remaining window time and retries (the retry then lands at the window
end, resets, and is admitted).  Times are modelled in whole seconds; the
increment performed by a rejected attempt is unobservable here because the
successful retry always goes through a reset. -/

/-- The state of one `limits(calls=60, period=60)` decorator instance. -/
structure Lim where
  lastReset : Nat
  numCalls : Nat
deriving DecidableEq, Repr

/-- The decorator state at process start (`last_reset` initialized to the
clock at decoration time, taken as instant 0). -/
def Lim.fresh : Lim := ⟨0, 0⟩

/-- One attempt through the `limits` wrapper at instant `now`: the updated
state and whether the wrapped function was actually entered (`false` means
`RateLimitException` was raised). -/
def Lim.tryCall (st : Lim) (now : Nat) : Lim × Bool :=
  let st1 := if st.lastReset + 60 ≤ now then Lim.mk now 0 else st
  let st2 := Lim.mk st1.lastReset (st1.numCalls + 1)
  (st2, decide (st2.numCalls ≤ 60))

/-- One call through `sleep_and_retry` + `limits` requested at instant
`now`: the updated state and the instant at which the wrapped function
actually runs.  A rejected attempt sleeps until the window end
`lastReset + 60` and retries there, which resets the window and admits the
call; the operation never fails. -/
def Lim.acquire (st : Lim) (now : Nat) : Lim × Nat :=
  match st.tryCall now with
  | (st2, true) => (st2, now)
  | (_, false) => (Lim.mk (st.lastReset + 60) 1, st.lastReset + 60)

/-- The four independently decorated call sites. -/
inductive Site where
  | expirations
  | chain
  | holdingDate
  | holdings
deriving DecidableEq, Repr

/-- Does this site call the Tradier options API (as opposed to the FMP
ETF-holdings API)? -/
def Site.isTradier : Site → Bool
  | .expirations => true
  | .chain => true
  | _ => false

/-- The joint state of the four decorator instances. -/
structure Limiters where
  expirationsLim : Lim
  chainLim : Lim
  holdingDateLim : Lim
  holdingsLim : Lim
deriving DecidableEq, Repr

/-- All four decorators in their process-start state. -/
def Limiters.fresh : Limiters := ⟨Lim.fresh, Lim.fresh, Lim.fresh, Lim.fresh⟩

/-- Route one rate-limited call to the decorator instance of its site. -/
def acquireSite (ls : Limiters) : Site → Nat → Limiters × Nat
  | .expirations, t =>
    let r := ls.expirationsLim.acquire t
    ({ ls with expirationsLim := r.1 }, r.2)
  | .chain, t =>
    let r := ls.chainLim.acquire t
    ({ ls with chainLim := r.1 }, r.2)
  | .holdingDate, t =>
    let r := ls.holdingDateLim.acquire t
    ({ ls with holdingDateLim := r.1 }, r.2)
  | .holdings, t =>
    let r := ls.holdingsLim.acquire t
    ({ ls with holdingsLim := r.1 }, r.2)

/-- Run a sequence of rate-limited calls, each given as (site, requested
instant), returning the final limiter states and, per call, the instant at
which it actually executed. -/
def runCalls (ls : Limiters) : List (Site × Nat) → Limiters × List (Site × Nat)
  | [] => (ls, [])
  | (s, t) :: rest =>
    let r := acquireSite ls s t
    let q := runCalls r.1 rest
    (q.1, (s, r.2) :: q.2)

end Chainbase

deriving instance DecidableEq for Except

namespace Chainbase

/-! ## Concrete environments used by the claim theorems -/

/-- Environment for the C1 scenario: expirations on days 0, 1, 45 and 91,
every chain response carrying an empty contract list, `now` at midnight PST
of day 0. -/
def envC1 : Env where
  now := ⟨0, 0⟩
  expirationsResp := fun _ => .ok [0, 1, 45, 91]
  chainResp := fun _ _ => .ok (jobj [("options", jobj [("option", jarr [])])])
  portfolioDatesResp := fun _ => .ok (jarr [])
  holdingsResp := fun _ _ => .ok (jarr [])

/-- Environment for the C2 scenario: `SPY.ETF` resolves to
`["AAPL", "MSFT"]`; every ticker has an empty expiration list. -/
def envC2 : Env where
  now := ⟨0, 0⟩
  expirationsResp := fun _ => .ok []
  chainResp := fun _ _ => .ok (jobj [])
  portfolioDatesResp := fun s =>
    if s == "SPY" then .ok (jarr [jobj [("date", Json.str "2024-07-01")]])
    else .ok (jarr [])
  holdingsResp := fun s _ =>
    if s == "SPY" then
      .ok (jarr [jobj [("symbol", Json.str "AAPL")], jobj [("symbol", Json.str "MSFT")]])
    else .ok (jarr [])

/-! ## Supporting lemmas -/

/-- A `contains` test returning `false` really means non-membership. -/
theorem not_mem_of_contains_eq_false {l : List Json} {x : Json}
    (h : l.contains x = false) : x ∉ l := by
  intro hm
  have ht : l.contains x = true := by
    rw [List.contains_iff_exists_mem_beq]
    exact ⟨x, hm, by simp⟩
  rw [ht] at h
  cases h

/-- Appending an element that is not yet present preserves `Nodup`. -/
theorem nodup_append_one {l : List Json} {x : Json}
    (h : l.Nodup) (hx : x ∉ l) : (l ++ [x]).Nodup := by
  rw [← List.concat_eq_append]
  exact h.concat hx

/-- At PST midnight the floored day difference is the calendar-day
difference. -/
theorem dte_at_midnight (e d : Int) : dte e ⟨d, 0⟩ = e - d := by
  unfold dte
  have h1 : e * 86400 - (d * 86400 + 0) = (e - d) * 86400 := by ring
  rw [h1, Int.fdiv_eq_ediv _ (by norm_num), Int.mul_ediv_cancel _ (by norm_num)]

/-- Membership characterization of the filter at line 169. -/
theorem mem_eligibleExpirations (exps : List Int) (now : Now) (e : Int) :
    e ∈ eligibleExpirations exps now ↔
      e ∈ exps ∧ 1 ≤ dte e now ∧ dte e now ≤ 90 := by
  simp [eligibleExpirations, List.mem_filter]

/-- The holdings loop preserves distinctness of `processed_tickers`: an
element is appended only after its `contains` test returned `false`. -/
theorem processHoldings_nodup (env : Env) (hs : List Json) :
    ∀ st st' : CycleState, processHoldings env st hs = .ok st' →
      st.processed.Nodup → st'.processed.Nodup := by
  induction hs with
  | nil =>
    intro st st' hp hn
    simp only [processHoldings] at hp
    cases hp
    exact hn
  | cons h t ih =>
    intro st st' hp hn
    simp only [processHoldings] at hp
    cases htr : pyTruthy h with
    | false =>
      rw [htr] at hp
      simp only [Bool.false_eq_true, if_false] at hp
      exact ih _ _ hp hn
    | true =>
      rw [htr] at hp
      simp only [if_true] at hp
      cases hc : st.processed.contains h with
      | true =>
        rw [hc] at hp
        simp only [if_true] at hp
        exact ih _ _ hp hn
      | false =>
        rw [hc] at hp
        simp only [Bool.false_eq_true, if_false] at hp
        cases hr : process_ticker env h with
        | error e =>
          rw [hr] at hp
          simp only [bind, Except.bind] at hp
          cases hp
        | ok r =>
          rw [hr] at hp
          simp only [bind, Except.bind] at hp
          exact ih _ _ hp
            (nodup_append_one hn (not_mem_of_contains_eq_false hc))

/-- One iteration of the configured-entry loop preserves distinctness of
`processed_tickers`. -/
theorem cycleStep_nodup (env : Env) (st st' : CycleState) (ticker : String)
    (hp : cycleStep env st ticker = .ok st') (hn : st.processed.Nodup) :
    st'.processed.Nodup := by
  unfold cycleStep at hp
  cases he : pyEndsWith ticker ".ETF" with
  | true =>
    rw [he] at hp
    simp only [if_true] at hp
    unfold cycleStepEtf at hp
    simp only [] at hp
    cases hd : get_latest_etf_holding_date env (pySplitDotHead ticker) with
    | error e =>
      rw [hd] at hp
      simp only [bind, Except.bind] at hp
      cases hp
    | ok latest =>
      rw [hd] at hp
      simp only [bind, Except.bind] at hp
      cases htr : pyTruthy latest.1 with
      | false =>
        rw [htr] at hp
        simp only [Bool.false_eq_true, if_false, pure, Except.pure] at hp
        cases hp
        exact hn
      | true =>
        rw [htr] at hp
        simp only [if_true] at hp
        cases hh : get_etf_holdings env (pySplitDotHead ticker) latest.1 with
        | error e =>
          rw [hh] at hp
          simp only [bind, Except.bind] at hp
          cases hp
        | ok holdings =>
          rw [hh] at hp
          simp only [bind, Except.bind] at hp
          exact processHoldings_nodup env holdings.1 _ _ hp hn
  | false =>
    rw [he] at hp
    simp only [Bool.false_eq_true, if_false] at hp
    unfold cycleStepPlain at hp
    cases hc : st.processed.contains (Json.str ticker) with
    | true =>
      rw [hc] at hp
      simp only [if_true] at hp
      cases hp
      exact hn
    | false =>
      rw [hc] at hp
      simp only [Bool.false_eq_true, if_false] at hp
      cases hr : process_ticker env (Json.str ticker) with
      | error e =>
        rw [hr] at hp
        simp only [bind, Except.bind] at hp
        cases hp
      | ok r =>
        rw [hr] at hp
        simp only [bind, Except.bind, pure, Except.pure] at hp
        cases hp
        exact nodup_append_one hn (not_mem_of_contains_eq_false hc)

/-- The fold over the configured entries preserves distinctness of
`processed_tickers`. -/
theorem foldl_cycleStep_nodup (env : Env) (tickers : List String) :
    ∀ st st' : CycleState, tickers.foldlM (cycleStep env) st = .ok st' →
      st.processed.Nodup → st'.processed.Nodup := by
  induction tickers with
  | nil =>
    intro st st' hp hn
    simp only [List.foldlM] at hp
    cases hp
    exact hn
  | cons h t ih =>
    intro st st' hp hn
    simp only [List.foldlM] at hp
    cases hs : cycleStep env st h with
    | error e =>
      rw [hs] at hp
      simp only [bind, Except.bind] at hp
      cases hp
    | ok st1 =>
      rw [hs] at hp
      simp only [bind, Except.bind] at hp
      exact ih _ _ hp (cycleStep_nodup env st st1 h hs hn)

/-! ## Claim C1 -/

/-- C1, counterexample.  The claim says an expiration is selected iff
its whole-day calendar difference from the current date lies in `[1, 90]`,
so that for `now` on day `D` the expirations `[D, D+1, D+45, D+91]` yield
exactly `[D+1, D+45]`.  The code instead floors the exact `timedelta`
between midnight-PST of the expiration and `datetime.now(PST)` (line 168):
at one hour past midnight of day 0 the day-1 expiration has calendar-day
difference `1`, inside the window, yet is not selected, and the eligible
list is `[45, 91]`, not `[1, 45]`. -/
theorem c1_counterexample :
    eligibleExpirations [0, 1, 45, 91] ⟨0, 3600⟩ = [45, 91] ∧
    eligibleExpirations [0, 1, 45, 91] ⟨0, 3600⟩ ≠ [1, 45] ∧
    (1 ≤ (1 : Int) - 0 ∧ (1 : Int) - 0 ≤ 90) ∧
    1 ∉ eligibleExpirations [0, 1, 45, 91] ⟨0, 3600⟩ := by
  decide

/-- C1, amended.  An expiration `e` is selected for chain fetching iff
`1 ≤ dte ≤ 90` where `dte` is the *floor* of the exact difference between
midnight PST of `e` and the current PST instant, measured in days.  This
equals the calendar-day difference exactly when `now` is midnight PST, in
which case the claimed scenario `[D, D+1, D+45, D+91] → [D+1, D+45]` holds;
one hour after midnight the same expirations yield `[D+45, D+91]`.  In
`process_ticker` the rows inserted are exactly one per selected
expiration, in order. -/
theorem c1_dte_window :
    (∀ (exps : List Int) (now : Now) (e : Int),
        e ∈ eligibleExpirations exps now ↔
          e ∈ exps ∧ 1 ≤ dte e now ∧ dte e now ≤ 90) ∧
    (∀ e d : Int, dte e ⟨d, 0⟩ = e - d) ∧
    eligibleExpirations [0, 1, 45, 91] ⟨0, 0⟩ = [1, 45] ∧
    eligibleExpirations [0, 1, 45, 91] ⟨0, 3600⟩ = [45, 91] ∧
    (process_ticker envC1 (Json.str "AAPL")).map (fun r => r.1.map Row.expiration) =
      .ok (eligibleExpirations [0, 1, 45, 91] envC1.now) :=
  ⟨mem_eligibleExpirations, dte_at_midnight, by decide, by decide, by decide⟩

/-! ## Claim C2 -/

/-- C2.  Within one call of `fetch_and_store_options` no symbol is
processed twice: whenever the cycle returns normally, the list of
`process_ticker` invocations (equivalently, the `processed_tickers` set in
insertion order) has no duplicates; and in the claimed scenario
`["AAPL", "SPY.ETF"]` with SPY resolving to `["AAPL", "MSFT"]` the
processed list is exactly `[AAPL, MSFT]`, with `AAPL` processed once. -/
theorem c2_dedup :
    (∀ (env : Env) (tickers : List String) (st : CycleState),
        fetch_and_store_options env tickers = .ok st → st.processed.Nodup) ∧
    (fetch_and_store_options envC2 ["AAPL", "SPY.ETF"]).map
        (fun st => (st.processed, st.processed.count (Json.str "AAPL"))) =
      .ok ([Json.str "AAPL", Json.str "MSFT"], 1) :=
  ⟨fun env tickers st h =>
    foldl_cycleStep_nodup env tickers CycleState.init st h List.nodup_nil,
   by decide⟩

/-- The final cycle state of the C2 scenario. -/
def c2State : CycleState := ⟨[Json.str "AAPL", Json.str "MSFT"], [], []⟩

/-- Witness for C2: the dedup statement instantiated at the scenario
environment, with its hypothesis discharged by evaluation. -/
theorem c2_dedup_witness : c2State.processed.Nodup :=
  c2_dedup.1 envC2 ["AAPL", "SPY.ETF"] c2State (by decide)

/-! ## Claim C3 -/

/-- Environment in which ticker `T1`'s expirations fetch fails with a
network-level transport error while `T2` is healthy. -/
def envC3 : Env where
  now := ⟨0, 0⟩
  expirationsResp := fun j =>
    if j == Json.str "T1" then .error .transport else .ok []
  chainResp := fun _ _ => .ok (jobj [])
  portfolioDatesResp := fun _ => .ok (jarr [])
  holdingsResp := fun _ _ => .ok (jarr [])

/-- Environment in which ticker `T1`'s expirations fetch fails with an
upstream HTTP error (non-2xx status) while `T2` is healthy. -/
def envC3http : Env where
  now := ⟨0, 0⟩
  expirationsResp := fun j =>
    if j == Json.str "T1" then .error (.http 500) else .ok []
  chainResp := fun _ _ => .ok (jobj [])
  portfolioDatesResp := fun _ => .ok (jarr [])
  holdingsResp := fun _ _ => .ok (jarr [])

/-- C3, counterexample.  The claim says a ticker whose expirations
fetch fails with a network-level transport error is logged and skipped
while every remaining ticker is still processed.  The `except` clause at
line 162 catches only `requests.exceptions.HTTPError`, of which transport
errors (`ConnectionError` / `Timeout`) are not subclasses, so the
exception propagates out of `process_ticker` and out of the ticker loop:
with `T1` failing in transport, the whole cycle aborts and `T2` is never
processed (no `.ok` state exists at all). -/
theorem c3_counterexample :
    fetch_and_store_options envC3 ["T1", "T2"] = .error .transport := by
  decide

/-- C3, amended.  Only an upstream HTTP (non-2xx) error on the
expirations fetch is isolated: it is logged via the "Error fetching
expirations" message, the ticker contributes zero rows, and the cycle
continues with the remaining tickers.  A transport error instead aborts
the cycle (see the counterexample).  Concretely, with `T1` failing with
HTTP 500 and `T2` healthy, both tickers are marked processed, no rows are
produced, and the log contains exactly `T1`'s fetch error. -/
theorem c3_error_isolation :
    (∀ (env : Env) (j : Json) (s : Nat),
        env.expirationsResp j = .error (.http s) →
          process_ticker env j = .ok ([], [Log.errFetchExpirations j])) ∧
    (fetch_and_store_options envC3http ["T1", "T2"]).map
        (fun st => (st.processed, st.rows, st.logs)) =
      .ok ([Json.str "T1", Json.str "T2"], [],
           [Log.errFetchExpirations (Json.str "T1")]) :=
  ⟨fun env j s h => by
    unfold process_ticker get_option_expirations
    rw [h],
   by decide⟩

/-- Witness for C3: the HTTP-isolation statement instantiated at the
concrete environment, hypothesis discharged by evaluation. -/
theorem c3_error_isolation_witness :
    process_ticker envC3http (Json.str "T1") =
      .ok ([], [Log.errFetchExpirations (Json.str "T1")]) :=
  c3_error_isolation.1 envC3http (Json.str "T1") 500 (by decide)

/-! ## Claim C4 -/

/-- C4, counterexample.  The claim says a tick at which the
trading-hours predicate is false performs no fetch work, and that the next
tick is scheduled exactly `interval` seconds after the invocation of the
current one.  Line 193 calls `fetch_and_store_options` unconditionally
before the gate, so a gated tick at hour 8 (outside `[9, 16)`) still
performs one fetch; and line 198 starts the timer only after the tick's
work, so with work duration 5 and interval 10 the second invocation is at
instant 15, not 10. -/
theorem c4_counterexample :
    is_trading_hours 8 = false ∧
    (schedule_tick_events 8).count SchedEvent.fetch = 1 ∧
    (schedule_tick_events 8).count SchedEvent.fetch ≠ 0 ∧
    schedule_invocation_time 0 10 (fun _ => 5) 1 = 15 ∧
    schedule_invocation_time 0 10 (fun _ => 5) 1 ≠ 0 + 10 := by
  decide

/-- C4, amended.  Every tick performs one unconditional fetch
(line 193); during trading hours it performs a second fetch, otherwise the
skip of that second fetch is logged; and tick `n + 1` is invoked exactly
`interval` seconds after tick `n`'s work completed (timer armed at
line 198, after the fetch work), i.e. `interval` plus the tick duration
after tick `n`'s invocation. -/
theorem c4_scheduler :
    (∀ hour : Nat, (schedule_tick_events hour).count SchedEvent.fetch =
        if is_trading_hours hour then 2 else 1) ∧
    (∀ hour : Nat,
        SchedEvent.skipLog ∈ schedule_tick_events hour ↔
          is_trading_hours hour = false) ∧
    (∀ (t0 interval : Nat) (dur : Nat → Nat) (n : Nat),
        schedule_invocation_time t0 interval dur (n + 1) =
          schedule_invocation_time t0 interval dur n + dur n + interval) :=
  ⟨fun hour => by
    unfold schedule_tick_events
    cases h : is_trading_hours hour <;> simp [h],
   fun hour => by
    unfold schedule_tick_events
    cases h : is_trading_hours hour <;> simp [h],
   fun t0 interval dur n => rfl⟩

/-! ## Claim C5 -/

/-- Sixty calls to `get_option_expirations` and one call to
`get_option_chain`, all requested at instant 0: 61 calls aimed at the
Tradier provider inside a single 60-second window. -/
def tradier61 : List (Site × Nat) :=
  List.replicate 60 (Site.expirations, 0) ++ [(Site.chain, 0)]

/-- Sixty calls at instant 59 plus one at instant 60, all to the single
decorated function `get_option_expirations`: 61 calls inside the rolling
window `[59, 60]`. -/
def sameSite61 : List (Site × Nat) :=
  List.replicate 60 (Site.expirations, 59) ++ [(Site.expirations, 60)]

/-- C5, counterexample.  The claim says at most 60 calls reach a given
provider in any rolling 60-second window, with one budget shared across
all call sites of that provider.  Each decorated function has its own
`limits` instance, so 60 expirations calls plus one chain call, all at
instant 0, are all admitted immediately — 61 Tradier calls in one window
with no blocking.  Moreover the `ratelimit` window is fixed, not rolling:
even a single decorated function admits 60 calls at instant 59 and another
at instant 60 (window reset), 61 calls within two seconds. -/
theorem c5_counterexample :
    (runCalls Limiters.fresh tradier61).2 = tradier61 ∧
    ((runCalls Limiters.fresh tradier61).2.filter (fun p => p.1.isTradier)).length = 61 ∧
    (runCalls Limiters.fresh sameSite61).2 = sameSite61 := by
  decide

/-- The `limits` state never records more than 60 admitted calls in the
current window. -/
theorem acquire_numCalls_le (st : Lim) (now : Nat) :
    ((st.acquire now).1).numCalls ≤ 60 := by
  unfold Lim.acquire
  cases h : st.tryCall now with
  | mk st2 b =>
    cases b with
    | false => simp
    | true =>
      simp only []
      unfold Lim.tryCall at h
      injection h with h1 h2
      subst h1
      exact of_decide_eq_true h2

/-- The wrapper `sleep_and_retry` delays but never rejects: the admitted instant is
never before the requested one. -/
theorem acquire_no_fail (st : Lim) (now : Nat) : now ≤ (st.acquire now).2 := by
  unfold Lim.acquire
  cases h : st.tryCall now with
  | mk st2 b =>
    cases b with
    | true => simp
    | false =>
      simp only []
      unfold Lim.tryCall at h
      by_cases hc : st.lastReset + 60 ≤ now
      · rw [if_pos hc] at h
        injection h with h1 h2
        simp at h2
      · rw [if_neg hc] at h
        omega

/-- C5, amended.  Each of the four decorated functions enforces its
own independent budget of 60 calls per fixed (non-overlapping) 60-second
window: the per-window admission count never exceeds 60, an exhausted
budget delays the caller (to the window end) instead of failing, the 61st
same-site request at instant 0 runs at instant 60, and a call through one
site's decorator leaves every other site's decorator state untouched (in
particular the two Tradier-facing functions do not share a budget). -/
theorem c5_rate_limit :
    (∀ (st : Lim) (now : Nat), ((st.acquire now).1).numCalls ≤ 60) ∧
    (∀ (st : Lim) (now : Nat), now ≤ (st.acquire now).2) ∧
    (runCalls Limiters.fresh (List.replicate 61 (Site.expirations, 0))).2 =
      List.replicate 60 (Site.expirations, 0) ++ [(Site.expirations, 60)] ∧
    (∀ (ls : Limiters) (t : Nat),
        ((acquireSite ls Site.expirations t).1).chainLim = ls.chainLim ∧
        ((acquireSite ls Site.expirations t).1).holdingDateLim = ls.holdingDateLim ∧
        ((acquireSite ls Site.expirations t).1).holdingsLim = ls.holdingsLim ∧
        ((acquireSite ls Site.chain t).1).expirationsLim = ls.expirationsLim) :=
  ⟨acquire_numCalls_le, acquire_no_fail, by decide,
   fun ls t => ⟨rfl, rfl, rfl, rfl⟩⟩

/-! ## Claim C6 -/

/-- A put contract as returned by the chain endpoint. -/
def contractPut : Json :=
  jobj [("option_type", Json.str "put"), ("strike", Json.num 100),
        ("bid", Json.num 1), ("ask", Json.num 2)]

/-- A call contract as returned by the chain endpoint. -/
def contractCall : Json :=
  jobj [("option_type", Json.str "call"), ("strike", Json.num 105),
        ("bid", Json.num 3), ("ask", Json.num 4)]

/-- Environment for C6: one ticker with expirations on days 10 and 20; the
day-10 chain response is an empty object (no option substructure), the
day-20 response is a well-formed chain with one put. -/
def envC6 : Env where
  now := ⟨0, 0⟩
  expirationsResp := fun _ => .ok [10, 20]
  chainResp := fun _ e =>
    if e == 10 then .ok (jobj [])
    else .ok (jobj [("options", jobj [("option", jarr [contractPut])])])
  portfolioDatesResp := fun _ => .ok (jarr [])
  holdingsResp := fun _ _ => .ok (jarr [])

/-- C6, counterexample.  The claim says every chain response lacking
the expected option-data substructure yields `([], [])`, logged rather
than raised.  For the response `{"options": null}` — which lacks that
substructure — the guard's second test `'option' in data['options']`
evaluates `'option' in None` and raises a `TypeError` instead (the Tradier
API does return `{"options": null}` for empty chains), so normalization
neither returns `([], [])` nor merely logs. -/
theorem c6_counterexample :
    normalizeChain (jobj [("options", Json.null)]) = .error Err.typeErr := by
  decide

/-- C6, amended.  Whenever the guard
`'options' in data and 'option' in data['options']` evaluates to `False`
without raising — e.g. a top-level object without the `options` key, or an
`options` value that is a container without the `option` key — the
normalizer returns `([], [])` with the "No option data found" warning
branch taken (logged, not raised), and the caller records one row for that
expiration and proceeds to the next expiration of the same ticker; but a
non-container `options` value such as `null` raises a `TypeError` instead
(see the counterexample). -/
theorem c6_no_data :
    (∀ data : Json, chainGuard data = .ok false →
        normalizeChain data = .ok (([], []), true)) ∧
    chainGuard (jobj []) = .ok false ∧
    chainGuard (jobj [("options", jobj [("foo", Json.num 1)])]) = .ok false ∧
    (process_ticker envC6 (Json.str "T")).map (fun r => (r.1, r.2)) =
      .ok ([⟨Json.str "T", 10, ([], [])⟩, ⟨Json.str "T", 20, ([contractPut], [])⟩],
           [Log.warnNoOptionData (Json.str "T") 10]) :=
  ⟨fun data h => by
    unfold normalizeChain
    rw [h]
    rfl,
   by decide, by decide, by decide⟩

/-- Witness for C6: the no-data statement instantiated at the empty-object
response, hypothesis discharged by evaluation. -/
theorem c6_no_data_witness :
    normalizeChain (jobj []) = .ok (([], []), true) :=
  c6_no_data.1 (jobj []) (by decide)

/-! ## Claim C7 -/

/-- Round trip between Lean lists and `JsonList`. -/
theorem toList_ofList (l : List Json) : (JsonList.ofList l).toList = l := by
  induction l with
  | nil => rfl
  | cons h t ih => simp [JsonList.ofList, JsonList.toList, ih]

/-- A well-formed chain response around a given contract list:
`{"options": {"option": opts}}`. -/
def mkChainJson (opts : List Json) : Json :=
  jobj [("options", jobj [("option", jarr opts)])]

/-- Does the contract's `option_type` field exist and equal `t`?  (The
effect of `opt['option_type'] == t` when the subscript succeeds.) -/
def isType (t : String) (o : Json) : Bool :=
  match pyIndexStr "option_type" o with
  | .ok v => v == Json.str t
  | .error _ => false

/-- When every contract's `option_type` subscript succeeds, the list
comprehension of lines 57-58 is a plain filter by `isType`. -/
theorem filterByType_eq_filter (t : String) (opts : List Json)
    (h : ∀ o ∈ opts, (pyIndexStr "option_type" o).isOk = true) :
    filterByType t opts = .ok (opts.filter (isType t)) := by
  induction opts with
  | nil => rfl
  | cons o rest ih =>
    have ho := h o (by simp)
    cases hv : pyIndexStr "option_type" o with
    | error e => rw [hv] at ho; cases ho
    | ok v =>
      have hrest := ih (fun x hx => h x (List.mem_cons_of_mem o hx))
      have hty : isType t o = (v == Json.str t) := by
        unfold isType; rw [hv]
      unfold filterByType
      rw [hv]
      simp only [bind, Except.bind]
      rw [hrest]
      simp only [List.filter_cons, hty]
      cases hb : v == Json.str t <;> simp [hb, pure, Except.pure]

/-- On a well-formed chain response the normalizer returns exactly the
`option_type` partition of the contract list. -/
theorem normalizeChain_mkChain (opts : List Json)
    (h : ∀ o ∈ opts, (pyIndexStr "option_type" o).isOk = true) :
    normalizeChain (mkChainJson opts) =
      .ok ((opts.filter (isType "put"), opts.filter (isType "call")), false) := by
  have h1 : normalizeChain (mkChainJson opts) = (do
      let puts ← filterByType "put" ((JsonList.ofList opts).toList)
      let calls ← filterByType "call" ((JsonList.ofList opts).toList)
      pure ((puts, calls), false)) := rfl
  rw [h1, toList_ofList, filterByType_eq_filter "put" opts h,
    filterByType_eq_filter "call" opts h]
  rfl

/-- The rows produced by the expiration loop: one per eligible expiration,
in order, labelled with the processed ticker, the blob being that
expiration's normalized puts/calls pair. -/
theorem processExpirations_rows (env : Env) (t : Json) (exps : List Int) :
    ∀ (rows : List Row) (logs : List Log),
      processExpirations env t exps = .ok (rows, logs) →
        rows.map Row.expiration = eligibleExpirations exps env.now ∧
        (∀ r ∈ rows, r.symbol = t) ∧
        (∀ r ∈ rows, ∃ lg, get_option_chain env t r.expiration = .ok (r.blob, lg)) := by
  induction exps with
  | nil =>
    intro rows logs h
    simp only [processExpirations] at h
    injection h with h1
    injection h1 with h2 h3
    subst h2
    refine ⟨rfl, ?_, ?_⟩ <;> intro r hr <;> cases hr
  | cons e rest ih =>
    intro rows logs h
    simp only [processExpirations] at h
    by_cases hg : 1 ≤ dte e env.now ∧ dte e env.now ≤ 90
    · rw [if_pos hg] at h
      cases hc : get_option_chain env t e with
      | error er => rw [hc] at h; simp only [bind, Except.bind] at h; cases h
      | ok c =>
        rw [hc] at h
        simp only [bind, Except.bind] at h
        cases hr : processExpirations env t rest with
        | error er => rw [hr] at h; cases h
        | ok r2 =>
          rw [hr] at h
          simp only [pure, Except.pure] at h
          injection h with h1
          injection h1 with h2 h3
          subst h2
          obtain ⟨hmap, hsym, hblob⟩ := ih r2.1 r2.2 (by rw [hr])
          refine ⟨?_, ?_, ?_⟩
          · show e :: r2.1.map Row.expiration = eligibleExpirations (e :: rest) env.now
            unfold eligibleExpirations
            rw [List.filter_cons_of_pos (by simp [hg.1, hg.2])]
            rw [hmap]
            rfl
          · intro r hrm
            rcases List.mem_cons.1 hrm with h | h
            · rw [h]
            · exact hsym r h
          · intro r hrm
            rcases List.mem_cons.1 hrm with h | h
            · refine ⟨c.2, ?_⟩
              rw [h]
              rw [hc]
            · exact hblob r h
    · rw [if_neg hg] at h
      obtain ⟨hmap, hsym, hblob⟩ := ih rows logs h
      refine ⟨?_, hsym, hblob⟩
      rw [hmap]
      unfold eligibleExpirations
      rw [List.filter_cons_of_neg]
      simp only [Bool.and_eq_true, decide_eq_true_eq]
      exact fun hx => hg hx

/-- Environment for C7: one ticker, one eligible expiration on day 10, a
chain response holding one put and one call contract. -/
def envC7 : Env where
  now := ⟨0, 0⟩
  expirationsResp := fun _ => .ok [10]
  chainResp := fun _ _ => .ok (mkChainJson [contractPut, contractCall])
  portfolioDatesResp := fun _ => .ok (jarr [])
  holdingsResp := fun _ _ => .ok (jarr [])

/-- C7, counterexample.  The claim says each contract is persisted as
its own row, mapped field-for-field into a canonical per-contract shape.
The table (lines 111-119) has only `(id, symbol, expiration, options
BYTEA, timestamp)`, and lines 172-184 insert *one* row per
ticker/expiration whose `options` column is the pickled `{'puts', 'calls'}`
structure: a chain with two contracts produces one stored row, not two,
and no per-field mapping exists. -/
theorem c7_counterexample :
    (process_ticker envC7 (Json.str "XYZ")).map (fun r => r.1) =
      .ok [⟨Json.str "XYZ", 10, ([contractPut], [contractCall])⟩] ∧
    (process_ticker envC7 (Json.str "XYZ")).map (fun r => r.1.length) = .ok 1 ∧
    (1 : Nat) ≠ 2 := by
  decide

/-- C7, amended.  Normalization partitions the contracts of a
well-formed chain response by their `option_type` field into puts and
calls, and persistence stores *one row per (ticker, eligible expiration)*
whose blob column holds the serialized puts/calls pair for that
expiration (with `id` and the ingestion timestamp assigned by the
database), rather than one field-mapped row per contract. -/
theorem c7_blob_rows :
    (∀ opts : List Json, (∀ o ∈ opts, (pyIndexStr "option_type" o).isOk = true) →
        normalizeChain (mkChainJson opts) =
          .ok ((opts.filter (isType "put"), opts.filter (isType "call")), false)) ∧
    (∀ (env : Env) (t : Json) (exps : List Int) (rows : List Row) (logs : List Log),
        processExpirations env t exps = .ok (rows, logs) →
          rows.map Row.expiration = eligibleExpirations exps env.now ∧
          (∀ r ∈ rows, r.symbol = t) ∧
          (∀ r ∈ rows, ∃ lg, get_option_chain env t r.expiration = .ok (r.blob, lg))) :=
  ⟨normalizeChain_mkChain,
   fun env t exps rows logs h => processExpirations_rows env t exps rows logs h⟩

/-- Witness for C7: partition and per-expiration row shape at the concrete
two-contract chain, hypotheses discharged by evaluation. -/
theorem c7_blob_rows_witness :
    normalizeChain (mkChainJson [contractPut, contractCall]) =
      .ok (([contractPut], [contractCall]), false) ∧
    ([⟨Json.str "XYZ", 10, ([contractPut], [contractCall])⟩] : List Row).map Row.expiration =
      eligibleExpirations [10] envC7.now :=
  ⟨(c7_blob_rows.1 [contractPut, contractCall] (by decide)).trans (by decide),
   (c7_blob_rows.2 envC7 (Json.str "XYZ") [10]
      [⟨Json.str "XYZ", 10, ([contractPut], [contractCall])⟩] []
      (by decide)).1⟩

/-! ## Claim C8 -/

/-- The resolver's NotFound branch: an empty portfolio-date list (the
provider reports no as-of dates) yields `None` plus the warning, not an
error. -/
theorem latest_empty (env : Env) (sym : String)
    (h : env.portfolioDatesResp sym = .ok (jarr [])) :
    get_latest_etf_holding_date env sym =
      .ok (Json.null, [Log.warnNoHoldingDates sym]) := by
  unfold get_latest_etf_holding_date
  rw [h]
  rfl

/-- An ETF entry whose holdings provider reports no dates leaves the cycle
state untouched apart from the warning: no tickers are contributed. -/
theorem cycleStep_etf_empty (env : Env) (st : CycleState) (t : String)
    (hetf : pyEndsWith t ".ETF" = true)
    (h : env.portfolioDatesResp (pySplitDotHead t) = .ok (jarr [])) :
    cycleStep env st t =
      .ok { st with logs := st.logs ++ [Log.warnNoHoldingDates (pySplitDotHead t)] } := by
  unfold cycleStep
  rw [if_pos hetf]
  unfold cycleStepEtf
  simp only []
  rw [latest_empty env (pySplitDotHead t) h]
  rfl

/-- Environment for C8: every ETF has an empty portfolio-date list; plain
tickers have empty expiration lists. -/
def envC8 : Env where
  now := ⟨0, 0⟩
  expirationsResp := fun _ => .ok []
  chainResp := fun _ _ => .ok (jobj [])
  portfolioDatesResp := fun _ => .ok (jarr [])
  holdingsResp := fun _ _ => .ok (jarr [])

/-- C8.  When the holdings provider reports no as-of dates for a
configured ETF entry, the resolver returns `None` (NotFound, not an
error), the "No holding dates found" warning is logged, the ETF
contributes zero tickers, and the cycle continues with the remaining
entries: with `["QQQ.ETF", "T2"]` and no dates for `QQQ`, only `T2` is
processed and the only log entry is the warning for `QQQ`. -/
theorem c8_notfound :
    (∀ (env : Env) (sym : String),
        env.portfolioDatesResp sym = .ok (jarr []) →
          get_latest_etf_holding_date env sym =
            .ok (Json.null, [Log.warnNoHoldingDates sym])) ∧
    (∀ (env : Env) (st : CycleState) (t : String),
        pyEndsWith t ".ETF" = true →
        env.portfolioDatesResp (pySplitDotHead t) = .ok (jarr []) →
        cycleStep env st t =
          .ok { st with logs := st.logs ++ [Log.warnNoHoldingDates (pySplitDotHead t)] }) ∧
    (fetch_and_store_options envC8 ["QQQ.ETF", "T2"]).map
        (fun st => (st.processed, st.logs)) =
      .ok ([Json.str "T2"], [Log.warnNoHoldingDates "QQQ"]) :=
  ⟨latest_empty, cycleStep_etf_empty, by decide⟩

/-- Witness for C8: both universally quantified parts instantiated at the
concrete environment, hypotheses discharged by evaluation. -/
theorem c8_notfound_witness :
    get_latest_etf_holding_date envC8 "QQQ" =
      .ok (Json.null, [Log.warnNoHoldingDates "QQQ"]) ∧
    cycleStep envC8 CycleState.init "QQQ.ETF" =
      .ok ⟨[], [], [Log.warnNoHoldingDates "QQQ"]⟩ :=
  ⟨c8_notfound.1 envC8 "QQQ" (by decide),
   (c8_notfound.2.1 envC8 CycleState.init "QQQ.ETF" (by decide) (by decide)).trans
     (by decide)⟩

/-! ## Claim C9 -/

/-- Is this JSON value a dict?  (`isinstance`-style shape test used to
state the C9 hypothesis.) -/
def Json.isObj : Json → Bool
  | .obj _ => true
  | _ => false

/-- The `symbol` field of a holding entry, when the entry is a dict that
has one. -/
def getSym (h : Json) : Option Json :=
  match h with
  | .obj kvs => ((kvs.toPairs).find? (fun kv => kv.1 == "symbol")).map (fun kv => kv.2)
  | _ => none

/-- Does the holding entry carry a `symbol` field? -/
def hasSym (h : Json) : Bool := (getSym h).isSome

/-- On dict entries, the membership test `'symbol' in holding` computes
`hasSym`. -/
theorem pyInStr_symbol_obj (kvs : JsonObj) :
    pyInStr "symbol" (.obj kvs) = .ok (hasSym (.obj kvs)) := by
  have h : (kvs.toPairs.any fun kv => kv.1 == "symbol") =
      ((kvs.toPairs.find? fun kv => kv.1 == "symbol").map fun kv => kv.2).isSome := by
    simp only [Option.isSome_map']
    rw [Bool.eq_iff_iff]
    simp [List.any_eq_true, List.find?_isSome]
  simp only [pyInStr, hasSym, getSym]
  rw [h]

/-- On dict entries carrying a `symbol` field, the subscript
`holding['symbol']` returns that field. -/
theorem pyIndexStr_symbol_obj (kvs : JsonObj) (v : Json)
    (h : getSym (.obj kvs) = some v) :
    pyIndexStr "symbol" (.obj kvs) = .ok v := by
  simp only [getSym] at h
  simp only [pyIndexStr]
  cases hf : (kvs.toPairs).find? (fun kv => kv.1 == "symbol") with
  | none => rw [hf] at h; cases h
  | some kv =>
    rw [hf] at h
    simp only [Option.map_some'] at h
    injection h with h1
    show Except.ok kv.2 = Except.ok v
    rw [h1]

/-- On a list of dict entries, the holdings loop keeps exactly the entries
with a `symbol` field (their field values, in order) and logs one warning
per entry without one. -/
theorem holdingsLoop_eq : ∀ hs : List Json, (∀ x ∈ hs, x.isObj = true) →
    holdingsLoop hs = .ok (hs.filterMap getSym,
      (hs.filter (fun x => !hasSym x)).map Log.warnMissingSymbol) := by
  intro hs
  induction hs with
  | nil => intro _; rfl
  | cons x t ih =>
    intro hobj
    have hx := hobj x (by simp)
    have hrest := ih (fun y hy => hobj y (List.mem_cons_of_mem x hy))
    cases x with
    | obj kvs =>
      unfold holdingsLoop
      rw [pyInStr_symbol_obj kvs]
      simp only [bind, Except.bind]
      cases hsym : hasSym (.obj kvs) with
      | true =>
        simp only [if_true]
        cases hv : getSym (.obj kvs) with
        | none => unfold hasSym at hsym; rw [hv] at hsym; cases hsym
        | some v =>
          rw [pyIndexStr_symbol_obj kvs v hv]
          simp only [bind, Except.bind]
          rw [hrest]
          simp [List.filterMap_cons, List.filter_cons, hv, hsym, pure, Except.pure]
      | false =>
        simp only [Bool.false_eq_true, if_false]
        rw [hrest]
        have hv : getSym (.obj kvs) = none := by
          unfold hasSym at hsym
          cases hw : getSym (.obj kvs) with
          | none => rfl
          | some v => rw [hw] at hsym; cases hsym
        simp [List.filterMap_cons, List.filter_cons, hv, hsym, pure, Except.pure]
    | null => simp [Json.isObj] at hx
    | bool b => simp [Json.isObj] at hx
    | num n => simp [Json.isObj] at hx
    | str s => simp [Json.isObj] at hx
    | arr xs => simp [Json.isObj] at hx

/-- Every entry contributes to exactly one side of the partition: the kept
symbols plus the skipped entries add up to the whole list. -/
theorem holdings_partition_length (hs : List Json) :
    (hs.filterMap getSym).length +
      (hs.filter (fun x => !hasSym x)).length = hs.length := by
  induction hs with
  | nil => rfl
  | cons x t ih =>
    cases hg : getSym x with
    | none =>
      have hx : hasSym x = false := by unfold hasSym; rw [hg]; rfl
      simp only [List.filterMap_cons, List.filter_cons, hg, hx, Bool.not_false,
        if_true, List.length_cons]
      omega
    | some v =>
      have hx : hasSym x = true := by unfold hasSym; rw [hg]; rfl
      simp only [List.filterMap_cons, List.filter_cons, hg, hx, Bool.not_true,
        Bool.false_eq_true, if_false, List.length_cons]
      omega

/-- C9.  For a holdings response whose entries are dicts, each entry
missing a `symbol` field is skipped individually (with one warning per
skipped entry) and every entry that has one is still included, in order;
consequently the resolved list is shortened by exactly the number of
malformed entries. -/
theorem c9_holdings :
    (∀ hs : List Json, (∀ x ∈ hs, x.isObj = true) →
        holdingsLoop hs = .ok (hs.filterMap getSym,
          (hs.filter (fun x => !hasSym x)).map Log.warnMissingSymbol)) ∧
    (∀ hs : List Json,
        (hs.filterMap getSym).length +
          (hs.filter (fun x => !hasSym x)).length = hs.length) :=
  ⟨holdingsLoop_eq, holdings_partition_length⟩

/-- Witness for C9: a three-entry response whose middle entry lacks
`symbol` resolves to the two present symbols plus one warning. -/
theorem c9_holdings_witness :
    holdingsLoop [jobj [("symbol", Json.str "A")], jobj [("name", Json.str "x")],
        jobj [("symbol", Json.str "B")]] =
      .ok ([Json.str "A", Json.str "B"],
        [Log.warnMissingSymbol (jobj [("name", Json.str "x")])]) :=
  (c9_holdings.1 [jobj [("symbol", Json.str "A")], jobj [("name", Json.str "x")],
      jobj [("symbol", Json.str "B")]] (by decide)).trans (by decide)

/-! ## Claim C10 -/

/-- Environment for C10: all endpoints succeed with empty data. -/
def envC10 : Env where
  now := ⟨0, 0⟩
  expirationsResp := fun _ => .ok []
  chainResp := fun _ _ => .ok (jobj [])
  portfolioDatesResp := fun _ => .ok (jarr [])
  holdingsResp := fun _ _ => .ok (jarr [])

/-- C10.  A configured entry takes the ETF path iff its string ends
with `'.ETF'` (case-sensitively: `"xle.etf"` and `"SPYETF"` do not); the
symbol sent to the holdings resolver is the prefix before the *first* dot
(`"A.B.ETF"` resolves `"A"`); any other entry is processed as a plain
ticker under its full configured string; and a resolved holding equal to
the empty string is skipped — logged, not processed, and not added to the
processed set. -/
theorem c10_entry_classification :
    (∀ (env : Env) (st : CycleState) (t : String),
        cycleStep env st t =
          if pyEndsWith t ".ETF" then cycleStepEtf env st t
          else cycleStepPlain env st t) ∧
    pyEndsWith "SPY.ETF" ".ETF" = true ∧
    pyEndsWith "xle.etf" ".ETF" = false ∧
    pyEndsWith "SPYETF" ".ETF" = false ∧
    pySplitDotHead "SPY.ETF" = "SPY" ∧
    pySplitDotHead "A.B.ETF" = "A" ∧
    (∀ (env : Env) (st : CycleState) (rest : List Json),
        processHoldings env st (Json.str "" :: rest) =
          processHoldings env
            { st with logs := st.logs ++ [Log.warnSkipInvalidHolding (Json.str "")] }
            rest) ∧
    (fetch_and_store_options envC10 ["xle.etf"]).map (fun st => st.processed) =
      .ok [Json.str "xle.etf"] :=
  ⟨fun env st t => rfl, by decide, by decide, by decide, by decide, by decide,
   fun env st rest => rfl, by decide⟩

end Chainbase
